import Mathlib

/-!
Verification development for the claude-all-hands repository.

Part A embeds the manifest / ignore-pattern code of
`src/scripts/allhands/manifest.py`, `src/scripts/hooks/manifest-check.py`
and `src/scripts/allhands/__main__.py`.  Paths and patterns are modelled
as `List Char` (the code runs on POSIX, where `os.path.normcase` is the
identity, so `fnmatch.fnmatch` coincides with `fnmatch.fnmatchcase`).

Part B models the worker-lifecycle manager described by the
specification.  That component's code is not part of the sources under
verification, so its definitions are written from the specification text
(sections 4.1-4.5, 6, 7 of the spec); each such definition carries a
`Modelled from the spec:` doc comment naming what is missing.
-/

/-! ### Part A.1: a model of Python `fnmatch.fnmatch`

`fnmatch` translates the pattern to a regex: `*` matches any (possibly
empty) sequence of characters including `/`, `?` matches exactly one
character, `[seq]` a character class (leading `!` negates, a `]` right
after `[` or `[!` is a literal member, `a-b` is a code-point range, an
unclosed `[` is a literal `[`), every other character is literal, and
the whole string must match. -/

/-- Scan a character-class body for the closing `]`; returns the body
and the rest of the pattern after `]`, or `none` if unclosed. -/
def scanClose : List Char → Option (List Char × List Char)
  | [] => none
  | ']' :: rest => some ([], rest)
  | c :: rest =>
    match scanClose rest with
    | none => none
    | some (b, r) => some (c :: b, r)

/-- Parse the pattern text following a `[`: returns (negated, class
body, rest of pattern), or `none` when the class is unclosed.  A `]`
immediately after `[` (or after `[!`) is part of the body, as in
CPython's `fnmatch.translate`. -/
def parseCls (ps : List Char) : Option (Bool × List Char × List Char) :=
  match ps with
  | '!' :: ']' :: tl => (scanClose tl).map (fun br => (true, ']' :: br.1, br.2))
  | '!' :: tl => (scanClose tl).map (fun br => (true, br.1, br.2))
  | ']' :: tl => (scanClose tl).map (fun br => (false, ']' :: br.1, br.2))
  | _ => (scanClose ps).map (fun br => (false, br.1, br.2))

/-- Does character `c` belong to the character-class body?  `a-b` is a
code-point range (empty when `a > b`), anything else is a literal. -/
def inCls : List Char → Char → Bool
  | [], _ => false
  | a :: '-' :: b :: rest, c => (decide (a ≤ c) && decide (c ≤ b)) || inCls rest c
  | a :: rest, c => (a == c) || inCls rest c

/-- Model of `fnmatch.fnmatch(s, p)` on POSIX (full-string glob match). -/
def fnmatchList (s p : List Char) : Bool :=
  match s, p with
  | [], [] => true
  | [], '*' :: ps => fnmatchList [] ps
  | [], _ :: _ => false
  | _ :: _, [] => false
  | c :: cs, '*' :: ps => fnmatchList (c :: cs) ps || fnmatchList cs ('*' :: ps)
  | _ :: cs, '?' :: ps => fnmatchList cs ps
  | c :: cs, '[' :: ps =>
    match parseCls ps with
    | some (neg, body, rest) =>
      (if neg then !(inCls body c) else inCls body c) && fnmatchList cs rest
    | none => (c == '[') && fnmatchList cs ps
  | c :: cs, q :: ps => (c == q) && fnmatchList cs ps
termination_by (s.length, p.length)

/-! ### Part A.2: string helpers shared by the two glob-matching loops -/

/-- Python `pattern.split("**", 1)`: split at the first occurrence of
`**`, or `none` when the pattern does not contain `**`. -/
def splitStarStar : List Char → Option (List Char × List Char)
  | '*' :: '*' :: rest => some ([], rest)
  | c :: rest => (splitStarStar rest).map (fun pr => (c :: pr.1, pr.2))
  | [] => none

/-- Auxiliary accumulator scan for `splitSS`. -/
def splitSSAux : List Char → List Char → List (List Char)
  | acc, '*' :: '*' :: rest => acc.reverse :: splitSSAux [] rest
  | acc, c :: rest => splitSSAux (c :: acc) rest
  | acc, [] => [acc.reverse]

/-- Python `pattern.split("**")` (full split on every occurrence). -/
def splitSS (l : List Char) : List (List Char) :=
  splitSSAux [] l

/-- Python `s.lstrip("/")`. -/
def lstripSlash (l : List Char) : List Char :=
  l.dropWhile (fun c => c == '/')

/-- Python `s.rstrip("/")`. -/
def rstripSlash (l : List Char) : List Char :=
  (l.reverse.dropWhile (fun c => c == '/')).reverse

/-! ### Part A.3: `is_ignored` (src/scripts/allhands/manifest.py, lines
113-132) and `is_covered` (src/scripts/hooks/manifest-check.py, lines
14-34), embedded separately so that their equivalence is a theorem. -/

/-- One iteration of the `is_ignored` loop body: does `path` match this
single ignore `pat`?  Mirrors manifest.py lines 115-131. -/
def ignorePatMatch (path pat : List Char) : Bool :=
  if fnmatchList path pat then true
  else
    match splitStarStar pat with
    | none => false
    | some (pre0, suf0) =>
      let pre := rstripSlash pre0
      let suf := lstripSlash suf0
      if (if pre.isEmpty then true else pre.isPrefixOf path) then
        let remaining := if pre.isEmpty then path else lstripSlash (path.drop pre.length)
        if suf.isEmpty then true
        else fnmatchList remaining ('*' :: suf) || fnmatchList remaining ('*' :: '/' :: suf)
      else false

/-- The `for pattern in patterns` loop of `is_ignored` with its early
`return True`. -/
def ignoredAux (path : List Char) : List (List Char) → Bool
  | [] => false
  | pat :: rest => ignorePatMatch path pat || ignoredAux path rest

/-- `is_ignored(path, patterns)` from src/scripts/allhands/manifest.py. -/
def is_ignored (path : String) (patterns : List String) : Bool :=
  ignoredAux path.data (patterns.map (fun p => p.data))

/-- One iteration of the `is_covered` loop body, mirroring
manifest-check.py lines 16-33 (textually the same algorithm as
`is_ignored`'s loop body). -/
def coveredPatMatch (path pat : List Char) : Bool :=
  if fnmatchList path pat then true
  else
    match splitStarStar pat with
    | none => false
    | some (pre0, suf0) =>
      let pre := rstripSlash pre0
      let suf := lstripSlash suf0
      if (if pre.isEmpty then true else pre.isPrefixOf path) then
        let remaining := if pre.isEmpty then path else lstripSlash (path.drop pre.length)
        if suf.isEmpty then true
        else fnmatchList remaining ('*' :: suf) || fnmatchList remaining ('*' :: '/' :: suf)
      else false

/-- The `for pattern in patterns` loop of `is_covered`. -/
def coveredAux (path : List Char) : List (List Char) → Bool
  | [] => false
  | pat :: rest => coveredPatMatch path pat || coveredAux path rest

/-- `is_covered(path, patterns)` from src/scripts/hooks/manifest-check.py. -/
def is_covered (path : String) (patterns : List String) : Bool :=
  coveredAux path.data (patterns.map (fun p => p.data))

/-! ### Part A.4: the `Manifest` class (src/scripts/allhands/manifest.py,
lines 9-95).  The manifest's three pattern lists are the data the
methods close over; the filesystem below `allhands_root` is modelled as
the list `fs` of relative paths of the regular files it contains. -/

/-- The pattern lists parsed from `.allhands-manifest.json`
(`distribute_patterns`, `internal_patterns`, `exclude_patterns`). -/
structure ManifestData where
  distribute : List (List Char)
  internal : List (List Char)
  exclude : List (List Char)
deriving DecidableEq

/-- `Manifest._matches(path, pattern)` (manifest.py lines 56-71).  Note
that, unlike `is_ignored`, the `**` handling runs first and, on a
matching prefix with a nonempty suffix, its result is returned without
falling back to the plain `fnmatch` of the whole pattern. -/
def manifestMatches (path pat : List Char) : Bool :=
  if (splitStarStar pat).isSome then
    match splitSS pat with
    | [pre0, suf0] =>
      let pre := rstripSlash pre0
      let suf := lstripSlash suf0
      if pre.isPrefixOf path then
        let remaining := lstripSlash (path.drop pre.length)
        if suf.isEmpty then true
        else fnmatchList remaining ('*' :: suf) || fnmatchList remaining ('*' :: '/' :: suf)
      else fnmatchList path pat
    | _ => fnmatchList path pat
  else fnmatchList path pat

/-- `Manifest.is_excluded` (manifest.py lines 35-40). -/
def ManifestData.is_excluded (m : ManifestData) (path : List Char) : Bool :=
  m.exclude.any (fun pat => manifestMatches path pat)

/-- `Manifest.is_distributable` (manifest.py lines 42-47). -/
def ManifestData.is_distributable (m : ManifestData) (path : List Char) : Bool :=
  m.distribute.any (fun pat => manifestMatches path pat)

/-- `Manifest.is_internal` (manifest.py lines 49-54). -/
def ManifestData.is_internal (m : ManifestData) (path : List Char) : Bool :=
  m.internal.any (fun pat => manifestMatches path pat)

/-- Split a path into its `/`-separated segments (accumulator form). -/
def splitSlashAux : List Char → List Char → List (List Char)
  | acc, [] => [acc.reverse]
  | acc, '/' :: rest => acc.reverse :: splitSlashAux [] rest
  | acc, c :: rest => splitSlashAux (c :: acc) rest

/-- Split a path into its `/`-separated segments. -/
def splitSlash (l : List Char) : List (List Char) :=
  splitSlashAux [] l

/-- Segment-wise glob match of a path against a non-`**` pattern. -/
def segsMatch : List (List Char) → List (List Char) → Bool
  | [], [] => true
  | ps :: pr, xs :: xr => fnmatchList xs ps && segsMatch pr xr
  | _, _ => false

/-- Model of `pathlib.Path.glob(pattern)` membership for a pattern
without `**`: the relative path matches when it has the same number of
`/`-separated segments as the pattern and each segment matches the
corresponding pattern segment (pathlib compiles each segment with
`fnmatch.translate` and does not special-case dotfiles). -/
def pathGlob (path pat : List Char) : Bool :=
  segsMatch (splitSlash pat) (splitSlash path)

/-- Candidate files produced by `base_path.rglob("*")` in
`get_distributable_files`, expressed relative to `allhands_root`: when
`base` is empty the base path is the root itself (every file), otherwise
exactly the files whose relative path starts with `base ++ "/"` (when no
such file exists, either `base_path` does not exist or it holds no
regular file, and the `rglob` loop contributes nothing either way). -/
def filesUnder (base : List Char) (fs : List (List Char)) : List (List Char) :=
  if base.isEmpty then fs
  else fs.filter (fun p => (base ++ ['/']).isPrefixOf p)

/-- The files contributed by one `distribute` pattern in the loop of
`get_distributable_files` (manifest.py lines 76-94): the `**` branch
walks `base_path` recursively and keeps files that are distributable and
not excluded; the plain branch globs the pattern and keeps files that
are not excluded. -/
def distFilesFor (m : ManifestData) (fs : List (List Char)) (pat : List Char) : List (List Char) :=
  match splitStarStar pat with
  | some (pre0, _) =>
    let base := rstripSlash pre0
    (filesUnder base fs).filter (fun p => m.is_distributable p && !(m.is_excluded p))
  | none =>
    (fs.filter (fun p => pathGlob p pat)).filter (fun p => !(m.is_excluded p))

/-- `Manifest.get_distributable_files` (manifest.py lines 73-95).  The
Python function accumulates into a `set`; the model returns the
concatenated candidate lists, which has the same members. -/
def ManifestData.get_distributable_files (m : ManifestData) (fs : List (List Char)) : List (List Char) :=
  m.distribute.foldr (fun pat acc => distFilesFor m fs pat ++ acc) []

/-! ### Part A.5: `load_ignore_patterns` (manifest.py lines 98-110) and
`cmd_check_ignored` (src/scripts/allhands/__main__.py lines 15-21).  The
`.allhandsignore` file of the target root is modelled as
`Option (List String)`: `none` when the file does not exist, otherwise
`some` of its lines. -/

/-- Python whitespace as stripped by `str.strip()` (ASCII part). -/
def isPyWS (c : Char) : Bool :=
  c == ' ' || c == '\t' || c == '\n' || c == '\r' || c == '\x0b' || c == '\x0c'

/-- Python `line.strip()`. -/
def stripLine (s : String) : String :=
  ⟨((s.data.dropWhile isPyWS).reverse.dropWhile isPyWS).reverse⟩

/-- `load_ignore_patterns(target_root)`: `[]` when `.allhandsignore`
does not exist; otherwise each line is stripped and kept when nonempty
and not a `#` comment. -/
def load_ignore_patterns (ignoreFile : Option (List String)) : List String :=
  match ignoreFile with
  | none => []
  | some lines =>
    (lines.map stripLine).filter (fun l => !l.isEmpty && !(l.startsWith "#"))

/-- `cmd_check_ignored(files)`: loads the ignore patterns from the
current directory's `.allhandsignore` (modelled by `ignoreFile`), prints
every file that is not ignored (first component, in input order) and
returns exit code 0 (second component). -/
def cmd_check_ignored (files : List String) (ignoreFile : Option (List String)) : List String × Nat :=
  let patterns := load_ignore_patterns ignoreFile
  (files.filter (fun f => !is_ignored f patterns), 0)

/-! ### Claims C1-C3 -/

theorem patMatch_eq (path pat : List Char) :
    ignorePatMatch path pat = coveredPatMatch path pat := rfl

theorem ignoredAux_eq_coveredAux (path : List Char) (pats : List (List Char)) :
    ignoredAux path pats = coveredAux path pats := by
  induction pats with
  | nil => rfl
  | cons pat rest ih => simp [ignoredAux, coveredAux, ih, patMatch_eq]

/-- C1: for every path string and every list of pattern strings, the
glob-matching loop `is_ignored` of src/scripts/allhands/manifest.py and
the glob-matching loop `is_covered` of
src/scripts/hooks/manifest-check.py return the same boolean: the two
implementations are extensionally equal. -/
theorem c1_glob_matchers_agree (path : String) (patterns : List String) :
    is_ignored path patterns = is_covered path patterns := by
  unfold is_ignored is_covered
  exact ignoredAux_eq_coveredAux path.data (patterns.map (fun p => p.data))

/-- C2: `is_ignored(path, [])` is `false` for every path; consequently,
when the target root has no `.allhandsignore` file,
`load_ignore_patterns` returns the empty list and `cmd_check_ignored`
prints every input file in input order and returns exit code 0. -/
theorem c2_no_ignore_file_prints_all :
    (∀ path : String, is_ignored path [] = false) ∧
    load_ignore_patterns none = ([] : List String) ∧
    (∀ files : List String, cmd_check_ignored files none = (files, 0)) := by
  refine ⟨fun path => rfl, rfl, fun files => ?_⟩
  unfold cmd_check_ignored load_ignore_patterns
  simp only [Prod.mk.injEq, and_true]
  induction files with
  | nil => rfl
  | cons f rest ih => simp [List.filter, is_ignored, ignoredAux, ih]

theorem mem_distFilesFor_not_excluded (m : ManifestData) (fs : List (List Char))
    (pat p : List Char) (hp : p ∈ distFilesFor m fs pat) :
    m.is_excluded p = false := by
  unfold distFilesFor at hp
  rcases h : splitStarStar pat with _ | pr
  · rw [h] at hp
    simp only [List.mem_filter] at hp
    simpa using hp.2
  · rw [h] at hp
    simp only [List.mem_filter, Bool.and_eq_true] at hp
    simpa using hp.2.2

theorem mem_distFoldr_not_excluded (m : ManifestData) (fs : List (List Char))
    (pats : List (List Char)) (p : List Char)
    (hp : p ∈ pats.foldr (fun pat acc => distFilesFor m fs pat ++ acc) []) :
    m.is_excluded p = false := by
  induction pats with
  | nil => simp at hp
  | cons pat rest ih =>
    simp only [List.foldr_cons, List.mem_append] at hp
    rcases hp with hp | hp
    · exact mem_distFilesFor_not_excluded m fs pat p hp
    · exact ih hp

/-- C3: every path returned by `Manifest.get_distributable_files`
satisfies `is_excluded(path) = false` — both branches of the pattern
loop filter candidates through `not is_excluded`, so no file matching an
exclude pattern is ever returned as distributable. -/
theorem c3_distributable_never_excluded (m : ManifestData) (fs : List (List Char))
    (p : List Char) (hp : p ∈ m.get_distributable_files fs) :
    m.is_excluded p = false :=
  mem_distFoldr_not_excluded m fs m.distribute p hp

/-- Witness for C3 at a concrete manifest: distribute `["**"]`, no
exclude patterns, a filesystem holding the single file `a.md`. -/
theorem c3_distributable_never_excluded_witness :
    "a.md".data ∈ (ManifestData.mk ["**".data] [] []).get_distributable_files ["a.md".data] ∧
    (ManifestData.mk ["**".data] [] []).is_excluded "a.md".data = false :=
  ⟨by decide, c3_distributable_never_excluded (ManifestData.mk ["**".data] [] [])
    ["a.md".data] "a.md".data (by decide)⟩

/-! ### Part B: the worker-lifecycle manager

The worker-lifecycle code itself (naming/sanitization, checkout
manager, process launcher, liveness prober, lifecycle orchestrator) is
not among the sources under `src/`; the definitions below are modelled
from the specification text and say so in their doc comments. -/

/-! #### Part B.1: Naming/Sanitization (spec section 4.1) -/

/-- Characters allowed in a sanitized identifier: `[a-z0-9._-]`. -/
def allowedChar (c : Char) : Bool :=
  (decide ('a' ≤ c) && decide (c ≤ 'z')) || (decide ('0' ≤ c) && decide (c ≤ '9')) ||
    c == '.' || c == '_' || c == '-'

/-- Is `c` a character stripped from the ends of a sanitized name
(dot or dash; the path separator has already been replaced by a dash
at this point)? -/
def isStrip (c : Char) : Bool :=
  c == '.' || c == '-'

/-- The uppercase-to-lowercase table for ASCII letters. -/
def upperPairs : List (Char × Char) :=
  [('A', 'a'), ('B', 'b'), ('C', 'c'), ('D', 'd'), ('E', 'e'), ('F', 'f'),
   ('G', 'g'), ('H', 'h'), ('I', 'i'), ('J', 'j'), ('K', 'k'), ('L', 'l'),
   ('M', 'm'), ('N', 'n'), ('O', 'o'), ('P', 'p'), ('Q', 'q'), ('R', 'r'),
   ('S', 's'), ('T', 't'), ('U', 'u'), ('V', 'v'), ('W', 'w'), ('X', 'x'),
   ('Y', 'y'), ('Z', 'z')]

/-- Modelled from the spec: the per-character step of the missing
naming/sanitization function (section 4.1) — keep the safe characters
`[a-z0-9._-]`, lowercase ASCII letters, and replace every other
character (the forbidden set, whitespace and the path separator
included) with a dash. -/
def mapChar (c : Char) : Char :=
  if allowedChar c then c
  else
    match upperPairs.find? (fun p => p.1 == c) with
    | some p => p.2
    | none => '-'

/-- Collapse every run of two or more consecutive `t`s to a single `t`. -/
def collapse (t : Char) : List Char → List Char
  | [] => []
  | [a] => [a]
  | a :: b :: rest =>
    if a == t && b == t then collapse t (b :: rest)
    else a :: collapse t (b :: rest)

/-- Does the list contain two adjacent occurrences of `t`? -/
def hasDouble (t : Char) : List Char → Bool
  | a :: b :: rest => (a == t && b == t) || hasDouble t (b :: rest)
  | _ => false

/-- Drop leading dot/dash characters. -/
def dropLead : List Char → List Char
  | [] => []
  | a :: rest => if isStrip a then dropLead rest else a :: rest

/-- Drop trailing dot/dash characters. -/
def dropTrail : List Char → List Char
  | [] => []
  | a :: rest =>
    match dropTrail rest with
    | [] => if isStrip a then [] else [a]
    | b :: ys => a :: b :: ys

/-- Strip leading and trailing dot/dash characters. -/
def stripEnds (l : List Char) : List Char :=
  dropTrail (dropLead l)

/-- Modelled from the spec: the missing naming/sanitization function of
section 4.1 — replace forbidden characters with a dash (lowercasing
letters), collapse runs of dashes, collapse runs of two or more dots,
and strip leading/trailing dots and dashes.  A pure function of its
argument, hence deterministic. -/
def sanitize (s : String) : String :=
  ⟨stripEnds (collapse '.' (collapse '-' (s.data.map mapChar)))⟩

/-- Neither end of the list is a dot or a dash. -/
def noBadEnds (l : List Char) : Bool :=
  (match l.head? with
   | some c => !isStrip c
   | none => true) &&
  (match l.getLast? with
   | some c => !isStrip c
   | none => true)

/-! #### Lemmas about the sanitization pipeline -/

theorem mapChar_allowed (c : Char) : allowedChar (mapChar c) = true := by
  unfold mapChar
  by_cases h : allowedChar c = true
  · rw [if_pos h]; exact h
  · rw [if_neg h]
    cases hf : upperPairs.find? (fun p => p.1 == c) with
    | none => decide
    | some p =>
      have hmem : p ∈ upperPairs := List.mem_of_find?_eq_some hf
      have hall : upperPairs.all (fun p => allowedChar p.2) = true := by decide
      exact List.all_eq_true.mp hall p hmem

theorem mapChar_of_allowed (c : Char) (h : allowedChar c = true) : mapChar c = c := by
  unfold mapChar
  rw [if_pos h]

theorem collapse_cons (t b : Char) (rest : List Char) :
    ∃ ys, collapse t (b :: rest) = b :: ys := by
  induction rest generalizing b with
  | nil => exact ⟨[], rfl⟩
  | cons c rs ih =>
    by_cases h : (b == t && c == t) = true
    · obtain ⟨hb, hc⟩ : b = t ∧ c = t := by simpa [Bool.and_eq_true] using h
      obtain ⟨ys, hys⟩ := ih c
      refine ⟨ys, ?_⟩
      rw [hb, ← hc]
      simpa [collapse, hb, hc] using hys
    · exact ⟨collapse t (c :: rs), by simp [collapse, h]⟩

theorem hasDouble_collapse_self (t : Char) (l : List Char) :
    hasDouble t (collapse t l) = false := by
  induction l with
  | nil => rfl
  | cons a tl ih =>
    cases tl with
    | nil => rfl
    | cons b rest =>
      by_cases h : (a == t && b == t) = true
      · simpa [collapse, h] using ih
      · have h' : (a == t && b == t) = false := by simpa using h
        obtain ⟨ys, hys⟩ := collapse_cons t b rest
        rw [hys] at ih
        simp [collapse, h', hys, hasDouble, ih]

theorem collapse_of_not_double (t : Char) (l : List Char)
    (h : hasDouble t l = false) : collapse t l = l := by
  induction l with
  | nil => rfl
  | cons a tl ih =>
    cases tl with
    | nil => rfl
    | cons b rest =>
      have h' : ((a == t && b == t) || hasDouble t (b :: rest)) = false := h
      have h1 : (a == t && b == t) = false := by
        cases hh : (a == t && b == t)
        · rfl
        · rw [hh] at h'; simp at h'
      have h2 : hasDouble t (b :: rest) = false := by
        rw [h1] at h'; simpa using h'
      simp [collapse, h1, ih h2]

theorem hasDouble_tail (u a : Char) (l : List Char)
    (h : hasDouble u (a :: l) = false) : hasDouble u l = false := by
  cases l with
  | nil => rfl
  | cons b rest =>
    have h' : ((a == u && b == u) || hasDouble u (b :: rest)) = false := h
    cases hh : hasDouble u (b :: rest)
    · rfl
    · rw [hh] at h'; simp at h'

theorem hasDouble_head_pair (u a b : Char) (l : List Char)
    (h : hasDouble u (a :: b :: l) = false) : (a == u && b == u) = false := by
  have h' : ((a == u && b == u) || hasDouble u (b :: l)) = false := h
  cases hh : (a == u && b == u)
  · rfl
  · rw [hh] at h'; simp at h'

theorem hasDouble_collapse (u t : Char) (l : List Char)
    (h : hasDouble u l = false) : hasDouble u (collapse t l) = false := by
  induction l with
  | nil => rfl
  | cons a tl ih =>
    cases tl with
    | nil => rfl
    | cons b rest =>
      have htl : hasDouble u (b :: rest) = false := hasDouble_tail u a _ h
      by_cases hc : (a == t && b == t) = true
      · simpa [collapse, hc] using ih htl
      · have hc' : (a == t && b == t) = false := by simpa using hc
        obtain ⟨ys, hys⟩ := collapse_cons t b rest
        have hcoll := ih htl
        rw [hys] at hcoll
        have hab : (a == u && b == u) = false := hasDouble_head_pair u a b rest h
        simp [collapse, hc', hys, hasDouble, hab, hcoll]

theorem collapse_sublist (t : Char) (l : List Char) : List.Sublist (collapse t l) l := by
  induction l with
  | nil => simp [collapse]
  | cons a tl ih =>
    cases tl with
    | nil => simp [collapse]
    | cons b rest =>
      by_cases hc : (a == t && b == t) = true
      · simp only [collapse, hc, if_true]
        exact ih.cons a
      · simp only [collapse]
        rw [if_neg hc]
        exact ih.cons₂ a

theorem dropLead_head (l : List Char) (c : Char)
    (h : (dropLead l).head? = some c) : isStrip c = false := by
  induction l with
  | nil => simp [dropLead] at h
  | cons a rest ih =>
    cases ha : isStrip a with
    | true => exact ih (by simpa [dropLead, ha] using h)
    | false =>
      have : a = c := by simpa [dropLead, ha] using h
      rw [← this]
      exact ha

theorem dropLead_sublist (l : List Char) : List.Sublist (dropLead l) l := by
  induction l with
  | nil => simp [dropLead]
  | cons a rest ih =>
    cases ha : isStrip a with
    | true => simpa [dropLead, ha] using ih.cons a
    | false => simp [dropLead, ha]

theorem dropLead_hasDouble (u : Char) (l : List Char)
    (h : hasDouble u l = false) : hasDouble u (dropLead l) = false := by
  induction l with
  | nil => rfl
  | cons a rest ih =>
    cases ha : isStrip a with
    | true => simpa [dropLead, ha] using ih (hasDouble_tail u a rest h)
    | false => simpa [dropLead, ha] using h

theorem dropLead_eq_self (l : List Char)
    (h : ∀ c, l.head? = some c → isStrip c = false) : dropLead l = l := by
  cases l with
  | nil => rfl
  | cons a rest => simp [dropLead, h a rfl]

theorem dropTrail_cons_shape (a : Char) (rest : List Char)
    (h : dropTrail (a :: rest) ≠ []) : ∃ ys, dropTrail (a :: rest) = a :: ys := by
  cases hr : dropTrail rest with
  | nil =>
    cases ha : isStrip a with
    | true => exact absurd (by simp [dropTrail, hr, ha]) h
    | false => exact ⟨[], by simp [dropTrail, hr, ha]⟩
  | cons b ys => exact ⟨b :: ys, by simp [dropTrail, hr]⟩

theorem dropTrail_getLast (l : List Char) (c : Char)
    (h : (dropTrail l).getLast? = some c) : isStrip c = false := by
  induction l with
  | nil => simp [dropTrail] at h
  | cons a rest ih =>
    cases hr : dropTrail rest with
    | nil =>
      cases ha : isStrip a with
      | true => simp [dropTrail, hr, ha] at h
      | false =>
        have : a = c := by simpa [dropTrail, hr, ha] using h
        rw [← this]; exact ha
    | cons b ys =>
      have hl : dropTrail (a :: rest) = a :: b :: ys := by simp [dropTrail, hr]
      rw [hl, List.getLast?_cons_cons] at h
      exact ih (by rw [hr]; exact h)

theorem dropTrail_sublist (l : List Char) : List.Sublist (dropTrail l) l := by
  induction l with
  | nil => simp [dropTrail]
  | cons a rest ih =>
    cases hr : dropTrail rest with
    | nil =>
      cases ha : isStrip a with
      | true => simp [dropTrail, hr, ha]
      | false =>
        simp only [dropTrail, hr, ha]
        exact (List.nil_sublist rest).cons₂ a
    | cons b ys =>
      simp only [dropTrail, hr]
      rw [hr] at ih
      exact ih.cons₂ a

theorem dropTrail_hasDouble (u : Char) (l : List Char)
    (h : hasDouble u l = false) : hasDouble u (dropTrail l) = false := by
  induction l with
  | nil => rfl
  | cons a rest ih =>
    cases hr : dropTrail rest with
    | nil =>
      cases ha : isStrip a with
      | true => simp [dropTrail, hr, ha, hasDouble]
      | false => simp [dropTrail, hr, ha, hasDouble]
    | cons b ys =>
      have hshape : dropTrail (a :: rest) = a :: b :: ys := by simp [dropTrail, hr]
      rw [hshape]
      have htl := ih (hasDouble_tail u a rest h)
      rw [hr] at htl
      cases rest with
      | nil => simp [dropTrail] at hr
      | cons r0 rs =>
        obtain ⟨ys', hys'⟩ := dropTrail_cons_shape r0 rs (by rw [hr]; simp)
        rw [hr] at hys'
        have hb : b = r0 := by
          injection hys' with h1 h2
        have hab : (a == u && b == u) = false := by
          rw [hb]; exact hasDouble_head_pair u a r0 rs h
        have hd : hasDouble u (a :: b :: ys) = ((a == u && b == u) || hasDouble u (b :: ys)) := rfl
        rw [hd, hab, htl]
        rfl

theorem dropTrail_eq_self (l : List Char)
    (h : ∀ c, l.getLast? = some c → isStrip c = false) : dropTrail l = l := by
  induction l with
  | nil => rfl
  | cons a rest ih =>
    cases rest with
    | nil =>
      have ha := h a rfl
      simp [dropTrail, ha]
    | cons r0 rs =>
      have hr : dropTrail (r0 :: rs) = r0 :: rs := by
        apply ih
        intro c hc
        exact h c (by rwa [List.getLast?_cons_cons])
      have step : dropTrail (a :: r0 :: rs) =
          match dropTrail (r0 :: rs) with
          | [] => if isStrip a then [] else [a]
          | b :: ys => a :: b :: ys := rfl
      rw [step, hr]

theorem dropTrail_head (l : List Char) (c : Char)
    (h : (dropTrail l).head? = some c) : l.head? = some c := by
  cases l with
  | nil => simp [dropTrail] at h
  | cons a rest =>
    by_cases hne : dropTrail (a :: rest) = []
    · rw [hne] at h; simp at h
    · obtain ⟨ys, hys⟩ := dropTrail_cons_shape a rest hne
      rw [hys] at h
      simpa using h

theorem stripEnds_head (l : List Char) (c : Char)
    (h : (stripEnds l).head? = some c) : isStrip c = false :=
  dropLead_head l c (dropTrail_head (dropLead l) c h)

theorem stripEnds_getLast (l : List Char) (c : Char)
    (h : (stripEnds l).getLast? = some c) : isStrip c = false :=
  dropTrail_getLast (dropLead l) c h

theorem stripEnds_sublist (l : List Char) : List.Sublist (stripEnds l) l :=
  (dropTrail_sublist (dropLead l)).trans (dropLead_sublist l)

theorem stripEnds_hasDouble (u : Char) (l : List Char)
    (h : hasDouble u l = false) : hasDouble u (stripEnds l) = false :=
  dropTrail_hasDouble u (dropLead l) (dropLead_hasDouble u l h)

theorem stripEnds_idem (l : List Char) : stripEnds (stripEnds l) = stripEnds l := by
  unfold stripEnds
  rw [dropLead_eq_self (dropTrail (dropLead l)) (fun c hc => stripEnds_head l c hc)]
  exact dropTrail_eq_self (dropTrail (dropLead l)) (fun c hc => stripEnds_getLast l c hc)

theorem map_mapChar_of_allowed (l : List Char)
    (h : ∀ c ∈ l, allowedChar c = true) : l.map mapChar = l := by
  induction l with
  | nil => rfl
  | cons a rest ih =>
    simp only [List.map_cons]
    rw [mapChar_of_allowed a (h a (List.mem_cons_self a rest)),
      ih (fun c hc => h c (List.mem_cons_of_mem a hc))]

theorem sanitize_data_allowed (x : String) :
    ∀ c ∈ (sanitize x).data, allowedChar c = true := by
  intro c hc
  have h1 : c ∈ collapse '.' (collapse '-' (x.data.map mapChar)) :=
    (stripEnds_sublist _).subset hc
  have h2 : c ∈ collapse '-' (x.data.map mapChar) :=
    (collapse_sublist '.' _).subset h1
  have h3 : c ∈ x.data.map mapChar :=
    (collapse_sublist '-' _).subset h2
  obtain ⟨d, _, hd⟩ := List.mem_map.mp h3
  rw [← hd]
  exact mapChar_allowed d

theorem sanitize_idem (x : String) : sanitize (sanitize x) = sanitize x := by
  have key : stripEnds (collapse '.' (collapse '-'
      ((stripEnds (collapse '.' (collapse '-' (x.data.map mapChar)))).map mapChar))) =
      stripEnds (collapse '.' (collapse '-' (x.data.map mapChar))) := by
    have hallowed : ∀ c ∈ stripEnds (collapse '.' (collapse '-' (x.data.map mapChar))),
        allowedChar c = true := sanitize_data_allowed x
    rw [map_mapChar_of_allowed _ hallowed]
    have hdash : hasDouble '-' (stripEnds (collapse '.' (collapse '-' (x.data.map mapChar)))) = false :=
      stripEnds_hasDouble '-' _ (hasDouble_collapse '-' '.' _ (hasDouble_collapse_self '-' _))
    rw [collapse_of_not_double '-' _ hdash]
    have hdot : hasDouble '.' (stripEnds (collapse '.' (collapse '-' (x.data.map mapChar)))) = false :=
      stripEnds_hasDouble '.' _ (hasDouble_collapse_self '.' _)
    rw [collapse_of_not_double '.' _ hdot]
    exact stripEnds_idem _
  exact congrArg String.mk key

/-- C4: the naming/sanitization function is a pure Lean function (hence
deterministic); it is idempotent, its output contains only characters in
`[a-z0-9._-]`, and the output never starts or ends with `.` or `-`. -/
theorem c4_sanitize_idempotent_safe (x : String) :
    sanitize (sanitize x) = sanitize x ∧
    (sanitize x).data.all allowedChar = true ∧
    noBadEnds (sanitize x).data = true := by
  refine ⟨sanitize_idem x, ?_, ?_⟩
  · exact List.all_eq_true.mpr (sanitize_data_allowed x)
  · unfold noBadEnds
    have hh : (match (sanitize x).data.head? with
        | some c => !isStrip c
        | none => true) = true := by
      cases hc : (sanitize x).data.head? with
      | none => rfl
      | some c => simp [stripEnds_head _ c hc]
    have hl : (match (sanitize x).data.getLast? with
        | some c => !isStrip c
        | none => true) = true := by
      cases hc : (sanitize x).data.getLast? with
      | none => rfl
      | some c => simp [stripEnds_getLast _ c hc]
    rw [hh, hl]
    rfl

/-! #### Part B.2: the worker registry, checkout manager, liveness
prober, status scanner and `create` orchestrator (spec sections 3,
4.2-4.5).  The filesystem registry and the version-control branch list
are the state; external collaborator outcomes (version-control success,
agent exit code and output, probe answers) are inputs. -/

/-- Modelled from the spec: the error kinds of the caller-facing result
envelope (section 6). -/
inductive ErrKind where
  | nesting_blocked
  | limit_exceeded
  | already_exists
  | git_error
  | spawn_error
  | not_found
deriving DecidableEq

/-- Modelled from the spec: the durable Run Record of a Worker
(section 3) — written before launch, rewritten once at completion. -/
structure RunRecord where
  branch : String
  task : String
  base_ref : String
  checkout_path : String
  started_at : Nat
  pid : Option Nat := none
  completed_at : Option Nat := none
  exit_code : Option Int := none
  output_line_count : Option Nat := none
deriving DecidableEq

/-- Modelled from the spec: one Worker directory in the registry — the
checkout directory named by the sanitized identifier, holding the Run
Record file (absent right after allocation) and the log file. -/
structure Worker where
  name : String
  record : Option RunRecord := none
  log : List String := []
deriving DecidableEq

/-- Modelled from the spec: the persistent state visible across
invocations — the registry directory's Worker children and the version
control system's local branches (sections 3 and 6). -/
structure SysState where
  registry : List Worker := []
  branches : List String := []
deriving DecidableEq

/-- Modelled from the spec: Checkout Manager `allocate` (section 4.2) —
creates branch and checkout, or fails with the collaborator's error
(`git_error`) when the branch already exists or the version-control
invocation fails (`vcsOk = false`), leaving the state unchanged. -/
def allocate (name branch : String) (vcsOk : Bool) (st : SysState) : Except ErrKind SysState :=
  if st.branches.any (fun b => b == branch) || !vcsOk then .error .git_error
  else .ok { registry := st.registry ++ [{ name := name }],
             branches := st.branches ++ [branch] }

/-- Events recording which teardown operations `release` attempted, in
order. -/
inductive RelEvent where
  | removeCheckout (name : String)
  | deleteBranch (branch : String)
deriving DecidableEq

/-- Result of a `release` call: overall success, resulting state, the
attempted operations in order, and whether a non-fatal branch-deletion
failure was recorded. -/
structure RelResult where
  ok : Bool
  st : SysState
  events : List RelEvent
  branchDeleteFailed : Bool
deriving DecidableEq

/-- Modelled from the spec: Checkout Manager `release` (section 4.2) —
checkout removal is attempted first (`checkoutRemoveOk` stands for the
underlying worktree-removal outcome; a non-forced removal may refuse on
dirty state, a forced removal succeeds); only after successful checkout
removal is branch deletion attempted, and a branch-deletion failure
(`branchDeleteOk = false`) is recorded but non-fatal, while a
checkout-removal failure fails the release and leaves the branch
untouched. -/
def release (name branch : String) (force checkoutRemoveOk branchDeleteOk : Bool)
    (st : SysState) : RelResult :=
  let removed := checkoutRemoveOk || force
  if removed then
    let st1 : SysState := { st with registry := st.registry.filter (fun w => w.name != name) }
    if branchDeleteOk then
      { ok := true
        st := { st1 with branches := st1.branches.filter (fun b => b != branch) }
        events := [.removeCheckout name, .deleteBranch branch]
        branchDeleteFailed := false }
    else
      { ok := true
        st := st1
        events := [.removeCheckout name, .deleteBranch branch]
        branchDeleteFailed := true }
  else
    { ok := false
      st := st
      events := [.removeCheckout name]
      branchDeleteFailed := false }

/-- Answer of the OS to a zero-effect existence probe of a pid. -/
inductive ProbeAnswer where
  | found
  | missing
  | permissionDenied
deriving DecidableEq

/-- Modelled from the spec: Liveness Prober `is_alive` (section 4.4) —
true when the OS confirms the process, false when the OS reports it does
not exist, and a privilege restriction is treated as alive (fail-safe). -/
def is_alive (probe : Nat → ProbeAnswer) (pid : Nat) : Bool :=
  match probe pid with
  | .missing => false
  | _ => true

/-- Status classification of a Worker. -/
inductive Classification where
  | running
  | completed (exit_code : Int)
  | unknown
deriving DecidableEq

/-- Modelled from the spec: the per-Worker classification used by
`status` (section 4.5) — completed when the Run Record carries
`completed_at` and `exit_code`, else running when the recorded pid
probes alive, else unknown. -/
def classify (probe : Nat → ProbeAnswer) (w : Worker) : Classification :=
  match w.record with
  | none => .unknown
  | some r =>
    match r.completed_at, r.exit_code with
    | some _, some c => .completed c
    | _, _ =>
      match r.pid with
      | some pid => if is_alive probe pid then .running else .unknown
      | none => .unknown

/-- The bounded tail of a log (its last `n` lines). -/
def tailLines (n : Nat) (log : List String) : List String :=
  log.drop (log.length - n)

/-- One row of the `status` report. -/
structure WorkerStatus where
  name : String
  classification : Classification
  tail : List String
deriving DecidableEq

/-- Modelled from the spec: `status()` (section 4.5) — scans the
registry, reads each Run Record, probes liveness, classifies each Worker
and attaches a bounded log tail; it never mutates state, which the model
makes visible by returning the (unchanged) state alongside the report. -/
def status (probe : Nat → ProbeAnswer) (tailN : Nat) (st : SysState) :
    List WorkerStatus × SysState :=
  (st.registry.map (fun w =>
    { name := w.name, classification := classify probe w, tail := tailLines tailN w.log }),
   st)

/-- Modelled from the spec: the environment and collaborator outcomes a
single `create` call observes — the nesting-guard marker of the calling
process, the configured Worker cap, whether the version-control
allocation succeeds, whether some step among 5-9 raises (and with which
error kind), and the agent child process's pid, exit code and output
lines (sections 4.3 and 4.5). -/
structure CreateEnv where
  nestingGuard : Bool
  maxWorkers : Nat
  vcsOk : Bool
  midFailure : Option ErrKind := none
  agentPid : Nat := 0
  agentExit : Int := 0
  agentOutput : List String := []
  startTime : Nat := 0
  endTime : Nat := 0
deriving DecidableEq

/-- Result of a `create` call: the caller-facing envelope (error kind or
success payload — the short summary of section 4.5 step 9) together with
the resulting persistent state. -/
structure CreateOutcome where
  result : Except ErrKind (List String)
  st : SysState

/-- The short summary of section 4.5 step 9: the last non-empty output
lines, collapsed to at most 3. -/
def summary3 (out : List String) : List String :=
  ((out.filter (fun l => !l.isEmpty)).reverse.take 3).reverse

/-- Replace the Worker directory named `name` with `w` (writing the Run
Record and log inside the allocated checkout). -/
def setWorker (name : String) (w : Worker) (st : SysState) : SysState :=
  { st with registry := st.registry.map (fun v => if v.name == name then w else v) }

/-- Modelled from the spec: the Worker left behind by a successful
`create` — the Run Record is written before launch with branch, task,
base_ref, checkout_path, started_at (and the child pid), and rewritten
at completion with completed_at, exit_code and the output line count;
the log holds the agent's streamed output lines (section 4.5 steps
6-9). -/
def completedWorker (env : CreateEnv) (label task base_ref branch : String) : Worker :=
  { name := sanitize label
    record := some
      { branch := branch, task := task, base_ref := base_ref,
        checkout_path := sanitize label, started_at := env.startTime,
        pid := some env.agentPid, completed_at := some env.endTime,
        exit_code := some env.agentExit,
        output_line_count := some env.agentOutput.length }
    log := env.agentOutput }

/-- Modelled from the spec: the `create` operation of the Worker
Lifecycle Manager (section 4.5), with its guard order — step 1 nesting
guard, step 2 count cap, step 3 derived-name existence check, step 4
checkout allocation, steps 5-9 record write / guarded launch /
record rewrite (collapsed into their final effect, since `create` is
synchronous), and step 10 best-effort force-release rollback on an
exception in steps 5-9 (the forced teardown of the just-created
checkout is modelled as succeeding). -/
def create (env : CreateEnv) (label task base_ref branch : String) (st : SysState) :
    CreateOutcome :=
  if env.nestingGuard then
    { result := .error .nesting_blocked, st := st }
  else if env.maxWorkers ≤ st.registry.length then
    { result := .error .limit_exceeded, st := st }
  else if st.registry.any (fun w => w.name == sanitize label) then
    { result := .error .already_exists, st := st }
  else
    match allocate (sanitize label) branch env.vcsOk st with
    | .error e => { result := .error e, st := st }
    | .ok st1 =>
      match env.midFailure with
      | some e =>
        { result := .error e,
          st := (release (sanitize label) branch true true true st1).st }
      | none =>
        { result := .ok (summary3 env.agentOutput),
          st := setWorker (sanitize label) (completedWorker env label task base_ref branch) st1 }

/-- One `create` call in a sequence issued by a single caller. -/
structure CreateCall where
  env : CreateEnv
  label : String
  task : String
  base_ref : String
  branch : String
deriving DecidableEq

/-- Run a sequence of `create` calls, each against the state left by the
previous one (the single, non-racing caller of the spec's section 5). -/
def runCreates (calls : List CreateCall) (st : SysState) : SysState :=
  calls.foldl (fun s c => (create c.env c.label c.task c.base_ref c.branch s).st) st

/-! ### Claims C9 and C10 -/

/-- C9: in every `release(target_path, branch, force)` call, checkout
removal is attempted first (the event list starts with it, and branch
deletion is attempted only after a successful removal); the release
succeeds exactly when checkout removal succeeds, so a branch-deletion
failure after successful checkout removal is non-fatal (it is recorded
in `branchDeleteFailed`), whereas a checkout-removal failure fails the
release. -/
theorem c9_release_checkout_first_branch_nonfatal (name branch : String)
    (force cOk bOk : Bool) (st : SysState) :
    (release name branch force cOk bOk st).events =
      (if cOk || force then [RelEvent.removeCheckout name, RelEvent.deleteBranch branch]
       else [RelEvent.removeCheckout name]) ∧
    (release name branch force cOk bOk st).events.head? =
      some (RelEvent.removeCheckout name) ∧
    (release name branch force cOk bOk st).ok = (cOk || force) ∧
    (release name branch force cOk bOk st).branchDeleteFailed = ((cOk || force) && !bOk) := by
  cases cOk <;> cases bOk <;> cases force <;> simp [release]

/-- C10: `status()` never mutates state — for every probe function, tail
bound and registry state, the state returned alongside the report (the
registry with every Run Record, log and checkout, and the branch list)
is exactly the input state. -/
theorem c10_status_never_mutates (probe : Nat → ProbeAnswer) (tailN : Nat) (st : SysState) :
    (status probe tailN st).2 = st ∧
    (status probe tailN st).2.registry = st.registry ∧
    (status probe tailN st).2.branches = st.branches :=
  ⟨rfl, rfl, rfl⟩

/-! ### Claim C5 -/

theorem release_registry_length_le (name branch : String) (f c b : Bool) (st : SysState) :
    ((release name branch f c b st).st).registry.length ≤ st.registry.length := by
  cases c <;> cases b <;> cases f <;>
    simp [release] <;> exact List.length_filter_le _ _

theorem create_registry_length_le (env : CreateEnv) (label task base_ref branch : String)
    (st : SysState) (h : st.registry.length ≤ env.maxWorkers) :
    ((create env label task base_ref branch st).st).registry.length ≤ env.maxWorkers := by
  unfold create
  by_cases h1 : env.nestingGuard = true
  · simp only [if_pos h1]; exact h
  simp only [if_neg h1]
  by_cases h2 : env.maxWorkers ≤ st.registry.length
  · simp only [if_pos h2]; exact h
  simp only [if_neg h2]
  by_cases h3 : (st.registry.any fun w => w.name == sanitize label) = true
  · simp only [if_pos h3]; exact h
  simp only [if_neg h3]
  rcases halloc : allocate (sanitize label) branch env.vcsOk st with e | st1
  · exact h
  have hst1 : st1.registry.length = st.registry.length + 1 := by
    unfold allocate at halloc
    split at halloc
    · simp at halloc
    · rw [← Except.ok.inj halloc]
      simp
  cases hmid : env.midFailure with
  | some e =>
    show ((release (sanitize label) branch true true true st1).st).registry.length ≤
      env.maxWorkers
    exact le_trans (release_registry_length_le _ _ _ _ _ _) (by omega)
  | none =>
    show ((setWorker (sanitize label) (completedWorker env label task base_ref branch)
      st1).registry).length ≤ env.maxWorkers
    have hset : ((setWorker (sanitize label)
        (completedWorker env label task base_ref branch) st1).registry).length =
        st1.registry.length := by
      simp [setWorker]
    omega

theorem runCreates_length_le (m : Nat) : ∀ (calls : List CreateCall) (st : SysState),
    calls.all (fun c => c.env.maxWorkers == m) = true →
    st.registry.length ≤ m → (runCreates calls st).registry.length ≤ m := by
  intro calls
  induction calls with
  | nil =>
    intro st _ h0
    exact h0
  | cons c rest ih =>
    intro st hm h0
    simp only [List.all_cons, Bool.and_eq_true, beq_iff_eq] at hm
    have hstep := create_registry_length_le c.env c.label c.task c.base_ref c.branch st
      (by rw [hm.1]; exact h0)
    rw [hm.1] at hstep
    simp only [runCreates, List.foldl_cons]
    exact ih ((create c.env c.label c.task c.base_ref c.branch st).st) hm.2 hstep

/-- C5: for every sequence of `create` calls issued by a single
(non-racing) caller with a common configured maximum `m`, the number of
Worker directories in the registry never exceeds `m` (it holds after
every prefix of the sequence, each instant being the state between two
calls); and a (non-nested) `create` call issued when the registry is
already at the cap is rejected with `limit_exceeded` and changes
nothing. -/
theorem c5_worker_cap_invariant (calls : List CreateCall) (m : Nat) (st : SysState)
    (env : CreateEnv) (label task base_ref branch : String) (st2 : SysState)
    (hm : calls.all (fun c => c.env.maxWorkers == m) = true)
    (h0 : st.registry.length ≤ m)
    (hg : env.nestingGuard = false)
    (hcap : st2.registry.length = env.maxWorkers) :
    (runCreates calls st).registry.length ≤ m ∧
    create env label task base_ref branch st2 =
      { result := .error .limit_exceeded, st := st2 } := by
  refine ⟨runCreates_length_le m calls st hm h0, ?_⟩
  unfold create
  rw [if_neg (by simp [hg]), if_pos (le_of_eq hcap.symm)]

/-- Witness for C5: one create call under cap 1 starting from the empty
registry, and an at-cap rejection with a one-worker registry under cap
1. -/
theorem c5_worker_cap_invariant_witness :
    (([{ env := { nestingGuard := false, maxWorkers := 1, vcsOk := true }, label := "w",
         task := "t", base_ref := "main", branch := "b" }] : List CreateCall).all
       (fun c => c.env.maxWorkers == 1) = true ∧
     (SysState.mk [] []).registry.length ≤ 1 ∧
     ({ nestingGuard := false, maxWorkers := 1, vcsOk := true } : CreateEnv).nestingGuard
       = false ∧
     (SysState.mk [{ name := "w" }] ["b"]).registry.length =
       ({ nestingGuard := false, maxWorkers := 1, vcsOk := true } : CreateEnv).maxWorkers) ∧
    ((runCreates [{ env := { nestingGuard := false, maxWorkers := 1, vcsOk := true },
                    label := "w", task := "t", base_ref := "main", branch := "b" }]
        (SysState.mk [] [])).registry.length ≤ 1 ∧
      create { nestingGuard := false, maxWorkers := 1, vcsOk := true } "x" "t2" "main" "b2"
        (SysState.mk [{ name := "w" }] ["b"]) =
        { result := .error .limit_exceeded, st := SysState.mk [{ name := "w" }] ["b"] }) :=
  ⟨⟨by decide, by decide, rfl, by decide⟩,
   c5_worker_cap_invariant
     [{ env := { nestingGuard := false, maxWorkers := 1, vcsOk := true }, label := "w",
        task := "t", base_ref := "main", branch := "b" }] 1 (SysState.mk [] [])
     { nestingGuard := false, maxWorkers := 1, vcsOk := true } "x" "t2" "main" "b2"
     (SysState.mk [{ name := "w" }] ["b"]) (by decide) (by decide) rfl (by decide)⟩

/-! ### Claim C6 -/

instance {e a : Type} [DecidableEq e] [DecidableEq a] : DecidableEq (Except e a) := by
  intro x y
  cases x <;> cases y
  case error.error u v =>
    cases decEq u v with
    | isTrue h => exact isTrue (by rw [h])
    | isFalse h => exact isFalse (fun hc => h (Except.error.inj hc))
  case ok.ok u v =>
    cases decEq u v with
    | isTrue h => exact isTrue (by rw [h])
    | isFalse h => exact isFalse (fun hc => h (Except.ok.inj hc))
  case error.ok u v => exact isFalse (fun hc => Except.noConfusion hc)
  case ok.error u v => exact isFalse (fun hc => Except.noConfusion hc)

theorem create_ok_state (env : CreateEnv) (label task base_ref branch : String)
    (st : SysState) (res : List String)
    (h : (create env label task base_ref branch st).result = .ok res) :
    (create env label task base_ref branch st).st =
      setWorker (sanitize label) (completedWorker env label task base_ref branch)
        { registry := st.registry ++ [{ name := sanitize label }],
          branches := st.branches ++ [branch] } := by
  unfold create at h ⊢
  by_cases h1 : env.nestingGuard = true
  · rw [if_pos h1] at h; simp at h
  rw [if_neg h1] at h ⊢
  by_cases h2 : env.maxWorkers ≤ st.registry.length
  · rw [if_pos h2] at h; simp at h
  rw [if_neg h2] at h ⊢
  by_cases h3 : (st.registry.any fun w => w.name == sanitize label) = true
  · rw [if_pos h3] at h; simp at h
  rw [if_neg h3] at h ⊢
  rcases halloc : allocate (sanitize label) branch env.vcsOk st with e | st1 <;>
    rw [halloc] at h
  · exact Except.noConfusion
      (show (Except.error e : Except ErrKind (List String)) = Except.ok res from h)
  cases hmid : env.midFailure with
  | some e =>
    rw [hmid] at h
    exact Except.noConfusion
      (show (Except.error e : Except ErrKind (List String)) = Except.ok res from h)
  | none =>
    have hst1 : st1 = { registry := st.registry ++ [{ name := sanitize label }],
                        branches := st.branches ++ [branch] } := by
      unfold allocate at halloc
      split at halloc
      · simp at halloc
      · exact (Except.ok.inj halloc).symm
    show setWorker (sanitize label) (completedWorker env label task base_ref branch) st1 =
      setWorker (sanitize label) (completedWorker env label task base_ref branch)
        { registry := st.registry ++ [{ name := sanitize label }],
          branches := st.branches ++ [branch] }
    rw [hst1]

theorem create_ok_name_present (env : CreateEnv) (label task base_ref branch : String)
    (st : SysState) (res : List String)
    (h : (create env label task base_ref branch st).result = .ok res) :
    ((create env label task base_ref branch st).st).registry.any
      (fun w => w.name == sanitize label) = true := by
  rw [create_ok_state env label task base_ref branch st res h]
  simp [setWorker, completedWorker]

/-- C6 counterexample: the claim fails as stated when the first create
fills the registry up to the configured maximum.  With cap 1 and an
empty registry, `create "x"` succeeds; the immediately following
`create "x"` is rejected by the step-2 cap check (`limit_exceeded`),
which runs before the step-3 existence check, so the error is not
`already_exists`. -/
theorem c6_counterexample :
    (create { nestingGuard := false, maxWorkers := 1, vcsOk := true } "x" "t" "m" "b"
       (SysState.mk [] [])).result = .ok [] ∧
    (create { nestingGuard := false, maxWorkers := 1, vcsOk := true } "x" "t" "m" "b"
       (create { nestingGuard := false, maxWorkers := 1, vcsOk := true } "x" "t" "m" "b"
         (SysState.mk [] [])).st).result = .error .limit_exceeded ∧
    (create { nestingGuard := false, maxWorkers := 1, vcsOk := true } "x" "t" "m" "b"
       (create { nestingGuard := false, maxWorkers := 1, vcsOk := true } "x" "t" "m" "b"
         (SysState.mk [] [])).st).result ≠ .error .already_exists :=
  ⟨rfl, rfl, by decide⟩

/-- C6 (amended): a create call immediately following a successful
create with the same label fails with `already_exists` and performs no
filesystem mutation beyond what the first call made — provided the
second call is not itself nesting-blocked and the registry is still
below the configured maximum at that point (at the cap, the
`limit_exceeded` rejection of step 2 takes precedence). -/
theorem c6_same_label_already_exists (env1 env2 : CreateEnv)
    (label task1 task2 base1 base2 br1 br2 : String) (st : SysState) (res : List String)
    (h1 : (create env1 label task1 base1 br1 st).result = .ok res)
    (hg : env2.nestingGuard = false)
    (hcap : (create env1 label task1 base1 br1 st).st.registry.length < env2.maxWorkers) :
    create env2 label task2 base2 br2 ((create env1 label task1 base1 br1 st).st) =
      { result := .error .already_exists,
        st := (create env1 label task1 base1 br1 st).st } := by
  have hany := create_ok_name_present env1 label task1 base1 br1 st res h1
  generalize hG : (create env1 label task1 base1 br1 st).st = stp at hany hcap ⊢
  unfold create
  rw [if_neg (by simp [hg]), if_neg (Nat.not_le.mpr hcap), if_pos hany]

/-- Witness for C6 (amended) at cap 2: the first `create "x"` succeeds
from the empty registry and the second one fails with
`already_exists`, leaving the state unchanged. -/
theorem c6_same_label_already_exists_witness :
    ((create { nestingGuard := false, maxWorkers := 2, vcsOk := true } "x" "t" "m" "b"
        (SysState.mk [] [])).result = .ok [] ∧
     ({ nestingGuard := false, maxWorkers := 2, vcsOk := true } : CreateEnv).nestingGuard
       = false ∧
     (create { nestingGuard := false, maxWorkers := 2, vcsOk := true } "x" "t" "m" "b"
        (SysState.mk [] [])).st.registry.length <
       ({ nestingGuard := false, maxWorkers := 2, vcsOk := true } : CreateEnv).maxWorkers) ∧
    create { nestingGuard := false, maxWorkers := 2, vcsOk := true } "x" "t2" "m2" "b2"
      ((create { nestingGuard := false, maxWorkers := 2, vcsOk := true } "x" "t" "m" "b"
         (SysState.mk [] [])).st) =
      { result := .error .already_exists,
        st := (create { nestingGuard := false, maxWorkers := 2, vcsOk := true } "x" "t" "m" "b"
          (SysState.mk [] [])).st } :=
  ⟨⟨by decide, rfl, by decide⟩,
   c6_same_label_already_exists
     { nestingGuard := false, maxWorkers := 2, vcsOk := true }
     { nestingGuard := false, maxWorkers := 2, vcsOk := true }
     "x" "t" "t2" "m" "m2" "b" "b2" (SysState.mk [] []) []
     (by decide) rfl (by decide)⟩

/-! ### Claim C7 -/

theorem filter_worker_ne_of_any_false (n : String) (l : List Worker)
    (h : (l.any fun w => w.name == n) = false) :
    l.filter (fun w => w.name != n) = l := by
  apply List.filter_eq_self.mpr
  intro a ha
  have hf : (a.name == n) = false := by
    cases hh : (a.name == n)
    · rfl
    · exact absurd (List.any_eq_true.mpr ⟨a, ha, hh⟩) (by rw [h]; simp)
  simp [bne, hf]

theorem filter_branch_ne_of_any_false (n : String) (l : List String)
    (h : (l.any fun b => b == n) = false) :
    l.filter (fun b => b != n) = l := by
  apply List.filter_eq_self.mpr
  intro a ha
  have hf : (a == n) = false := by
    cases hh : (a == n)
    · rfl
    · exact absurd (List.any_eq_true.mpr ⟨a, ha, hh⟩) (by rw [h]; simp)
  simp [bne, hf]

/-- C7: for every `create` call that passes the guards, allocates its
checkout successfully, and then fails in some later step (steps 5-9,
`midFailure = some e`), `create` force-releases the checkout before
propagating the error: the call returns that error and the resulting
state is exactly the initial state — no orphaned checkout/branch pair
remains. -/
theorem c7_rollback_on_midstep_failure (env : CreateEnv)
    (label task base_ref branch : String) (st : SysState) (e : ErrKind)
    (hg : env.nestingGuard = false)
    (hcap : st.registry.length < env.maxWorkers)
    (hex : (st.registry.any fun w => w.name == sanitize label) = false)
    (hvcs : env.vcsOk = true)
    (hbr : (st.branches.any fun b => b == branch) = false)
    (hmid : env.midFailure = some e) :
    create env label task base_ref branch st = { result := .error e, st := st } := by
  have halloc : allocate (sanitize label) branch env.vcsOk st =
      .ok { registry := st.registry ++ [{ name := sanitize label }],
            branches := st.branches ++ [branch] } := by
    unfold allocate
    rw [if_neg (by simp [hbr, hvcs])]
  have hrel : (release (sanitize label) branch true true true
      { registry := st.registry ++ [{ name := sanitize label }],
        branches := st.branches ++ [branch] }).st = st := by
    simp only [release, Bool.or_self, if_true]
    simp only [List.filter_append, filter_worker_ne_of_any_false (sanitize label) st.registry hex,
      filter_branch_ne_of_any_false branch st.branches hbr]
    simp [bne]
  unfold create
  rw [if_neg (by simp [hg]), if_neg (Nat.not_le.mpr hcap), if_neg (by simp [hex]),
    halloc, hmid]
  exact congrArg (fun s => ({ result := .error e, st := s } : CreateOutcome)) hrel

/-- Witness for C7 at cap 1 from the empty registry, with a
`spawn_error` raised after allocation: the call fails with that error
and the state is rolled back to empty. -/
theorem c7_rollback_on_midstep_failure_witness :
    (({ nestingGuard := false, maxWorkers := 1, vcsOk := true,
        midFailure := some .spawn_error } : CreateEnv).nestingGuard = false ∧
     (SysState.mk [] []).registry.length <
       ({ nestingGuard := false, maxWorkers := 1, vcsOk := true,
          midFailure := some .spawn_error } : CreateEnv).maxWorkers ∧
     ((SysState.mk [] []).registry.any fun w => w.name == sanitize "w") = false ∧
     ({ nestingGuard := false, maxWorkers := 1, vcsOk := true,
        midFailure := some .spawn_error } : CreateEnv).vcsOk = true ∧
     ((SysState.mk [] []).branches.any fun b => b == "b") = false ∧
     ({ nestingGuard := false, maxWorkers := 1, vcsOk := true,
        midFailure := some .spawn_error } : CreateEnv).midFailure = some .spawn_error) ∧
    create { nestingGuard := false, maxWorkers := 1, vcsOk := true,
             midFailure := some .spawn_error } "w" "t" "main" "b" (SysState.mk [] []) =
      { result := .error .spawn_error, st := SysState.mk [] [] } :=
  ⟨⟨rfl, by decide, by decide, rfl, by decide, rfl⟩,
   c7_rollback_on_midstep_failure
     { nestingGuard := false, maxWorkers := 1, vcsOk := true,
       midFailure := some .spawn_error } "w" "t" "main" "b" (SysState.mk [] [])
     .spawn_error rfl (by decide) (by decide) rfl (by decide) rfl⟩

/-! ### Claim C8 -/

/-- C8: after a successful `create` whose agent process exited with code
`c`, a subsequent `status` call lists a Worker named by the sanitized
label classified as `completed c`, and every listed Worker with that
name is classified `completed c` (never `running` or `unknown`) — for
any probe function and any exit code, zero or not. -/
theorem c8_status_completed_with_exit_code (env : CreateEnv)
    (label task base_ref branch : String) (st : SysState) (res : List String)
    (probe : Nat → ProbeAnswer) (tailN : Nat) (c : Int)
    (h : (create env label task base_ref branch st).result = .ok res)
    (hex : (st.registry.any fun w => w.name == sanitize label) = false)
    (hc : env.agentExit = c) :
    ((status probe tailN (create env label task base_ref branch st).st).1.any
       (fun ws => ws.name == sanitize label &&
         ws.classification == Classification.completed c) = true) ∧
    ((status probe tailN (create env label task base_ref branch st).st).1.all
       (fun ws => ws.name != sanitize label ||
         ws.classification == Classification.completed c) = true) := by
  subst hc
  rw [create_ok_state env label task base_ref branch st res h]
  refine ⟨?_, ?_⟩
  · simp [status, setWorker, completedWorker, classify, List.any_append]
  · simp only [status, setWorker, List.map_append, List.map_map, List.all_append,
      Bool.and_eq_true, List.all_eq_true]
    refine ⟨?_, ?_⟩
    · intro row hrow
      simp only [List.mem_map, Function.comp] at hrow
      obtain ⟨v, hv, hrow⟩ := hrow
      have hvf : (v.name == sanitize label) = false := by
        cases hh : (v.name == sanitize label)
        · rfl
        · exact absurd (List.any_eq_true.mpr ⟨v, hv, hh⟩) (by rw [hex]; simp)
      rw [← hrow]
      simp [hvf, bne]
    · intro row hrow
      simp only [List.mem_map, List.mem_singleton, Function.comp] at hrow
      obtain ⟨v, hv, hrow⟩ := hrow
      rw [hv] at hrow
      rw [← hrow]
      simp [completedWorker, classify]

/-- Witness for C8: one successful create with agent exit code 2 from
the empty registry; the status scan lists the worker as completed with
exit code 2. -/
theorem c8_status_completed_with_exit_code_witness :
    ((create { nestingGuard := false, maxWorkers := 1, vcsOk := true, agentExit := 2 }
        "w" "t" "main" "b" (SysState.mk [] [])).result = .ok [] ∧
     ((SysState.mk [] []).registry.any fun w => w.name == sanitize "w") = false ∧
     ({ nestingGuard := false, maxWorkers := 1, vcsOk := true, agentExit := 2 } :
       CreateEnv).agentExit = 2) ∧
    (((status (fun _ => ProbeAnswer.missing) 10
        (create { nestingGuard := false, maxWorkers := 1, vcsOk := true, agentExit := 2 }
           "w" "t" "main" "b" (SysState.mk [] [])).st).1.any
        (fun ws => ws.name == sanitize "w" &&
          ws.classification == Classification.completed 2) = true) ∧
     ((status (fun _ => ProbeAnswer.missing) 10
        (create { nestingGuard := false, maxWorkers := 1, vcsOk := true, agentExit := 2 }
           "w" "t" "main" "b" (SysState.mk [] [])).st).1.all
        (fun ws => ws.name != sanitize "w" ||
          ws.classification == Classification.completed 2) = true)) :=
  ⟨⟨rfl, by decide, rfl⟩,
   c8_status_completed_with_exit_code
     { nestingGuard := false, maxWorkers := 1, vcsOk := true, agentExit := 2 }
     "w" "t" "main" "b" (SysState.mk [] []) [] (fun _ => ProbeAnswer.missing) 10 2
     rfl (by decide) rfl⟩
